import Mathlib

/-!
# Verification of the pattern-scanning / hook-installation core

Shallow embedding of the repository's core (src/PatternScanning.cpp,
src/Hook.cpp, src/Main.cpp) and proofs about it.

Modelling conventions:
* A memory image is a total function `Nat → Nat` giving the byte stored at
  each address; writes produce an updated function.
* `uintptr_t` / `size_t` arithmetic wraps modulo `2 ^ 64`; where the source
  can underflow (the `end - pattern_len + 1` boundary) we compute modulo
  `W = 2 ^ 64` explicitly.
* A `const uint8_t*` pattern argument is `Option (Nat → Nat)`: `none` is the
  null pointer, `some pat` gives the byte at each index.
* `memcmp(p, q, n) == 0` becomes `matchAt`, byte-for-byte equality.
-/

/-- The constant `2 ^ 64`, the modulus of `uintptr_t` / `size_t` arithmetic. -/
def W : Nat := 2 ^ 64

/-- The boundary `end - pattern_len + 1` computed in `uintptr_t` arithmetic
(wrapping modulo `2 ^ 64`), from `PatternScanning.cpp`. -/
def scanEnd (end_ pattern_len : Nat) : Nat :=
  (end_ + 1 + (W - pattern_len % W)) % W

/-- Embedding of `memcmp((const void*)addr, pattern, len) == 0`: the `len` bytes of memory
starting at `addr` equal the first `len` bytes of the pattern. -/
def matchAt (mem pat : Nat → Nat) (addr : Nat) : Nat → Bool
  | 0 => true
  | k + 1 => (mem (addr + k) == pat k) && matchAt mem pat addr k

/-- The scalar scan loop: try `fuel` consecutive candidate addresses starting
at `addr`, returning the first one where the whole pattern matches. -/
def findFirst (mem pat : Nat → Nat) (len : Nat) : Nat → Nat → Option Nat
  | _, 0 => none
  | addr, fuel + 1 =>
    if matchAt mem pat addr len then some addr
    else findFirst mem pat len (addr + 1) fuel

/-- Embedding of `_BitScanForward`: index of the lowest set bit (unspecified input `0`
never occurs in the source, which guards `mask != 0`). -/
def lsb (m : Nat) : Nat :=
  if h : m = 0 then 0
  else if m % 2 = 1 then 0
  else lsb (m / 2) + 1
termination_by m
decreasing_by exact Nat.div_lt_self (Nat.pos_of_ne_zero h) (by omega)

theorem and_pred_lt {m : Nat} (h : m ≠ 0) : m &&& (m - 1) < m :=
  lt_of_le_of_lt Nat.and_le_right (by omega)

/-- Embedding of the `while (mask != 0)` loop of the SIMD scanners: repeatedly extract the
lowest set bit of `mask` as the candidate offset, verify the full pattern
there with `memcmp`, and clear the lowest bit (`mask &= (mask - 1)`). -/
def maskLoop (mem pat : Nat → Nat) (len addr : Nat) (mask : Nat) : Option Nat :=
  if h : mask = 0 then none
  else
    let offset := lsb mask
    let candidate := addr + offset
    if matchAt mem pat candidate len then some candidate
    else maskLoop mem pat len addr (mask &&& (mask - 1))
termination_by mask
decreasing_by exact and_pred_lt h

/-- Embedding of `_mm_movemask_epi8 (_mm_cmpeq_epi8 data first_byte)` (and its 256-bit
variant): bit `i` of the result is set iff the byte at `addr + i` equals `b`,
for `i < width`. -/
def movemask (mem : Nat → Nat) (b : Nat) : Nat → Nat → Nat
  | _, 0 => 0
  | addr, width + 1 =>
    (if mem addr = b then 1 else 0) + 2 * movemask mem b (addr + 1) width

/-- The chunked SIMD loop: while `addr < simd_end`, compare a `w`-byte chunk
at `addr` against the pattern's first byte, run `maskLoop` over the match
mask, and advance by `w`.  `fuel` is an upper bound on the iteration count
(call sites pass `simd_end - addr`, which suffices since `w ≥ 1`); the source
loop needs no fuel because each iteration strictly increases `addr`. -/
def chunkLoop (mem pat : Nat → Nat) (len w : Nat) : Nat → Nat → Nat → Option Nat
  | _, _, 0 => none
  | addr, simd_end, fuel + 1 =>
    if addr < simd_end then
      match maskLoop mem pat len addr (movemask mem (pat 0) addr w) with
      | some c => some c
      | none => chunkLoop mem pat len w (addr + w) simd_end fuel
    else none

/-- Embedding of `ScanPattern_Scalar` from `PatternScanning.cpp`. -/
def ScanPattern_Scalar (mem : Nat → Nat) (start end_ : Nat)
    (pattern : Option (Nat → Nat)) (pattern_len : Nat) : Nat :=
  match pattern with
  | none => 0
  | some pat =>
    if pattern_len = 0 ∨ end_ ≤ start then 0
    else
      let scan_end := scanEnd end_ pattern_len
      if scan_end ≤ start then 0
      else
        match findFirst mem pat pattern_len start (scan_end - start) with
        | some addr => addr
        | none => 0

/-- Common body of `ScanPattern_SSE2` and `ScanPattern_AVX2`: the two source
functions are textually identical except for the chunk width (16 bytes of an
XMM register vs 32 bytes of a YMM register).  `simd_end := scan_end / w * w`
is the source's `scan_end & ~15` (resp. `& ~31`): the low bits cleared. -/
def scanSIMD (w : Nat) (mem : Nat → Nat) (start end_ : Nat)
    (pattern : Option (Nat → Nat)) (pattern_len : Nat) : Nat :=
  match pattern with
  | none => 0
  | some pat =>
    if pattern_len = 0 ∨ end_ ≤ start then 0
    else
      let scan_end := scanEnd end_ pattern_len
      if scan_end ≤ start then 0
      else
        let simd_end := scan_end / w * w
        match chunkLoop mem pat pattern_len w start simd_end (simd_end - start) with
        | some c => c
        | none =>
          match findFirst mem pat pattern_len simd_end (scan_end - simd_end) with
          | some addr => addr
          | none => 0

/-- Embedding of `ScanPattern_SSE2` from `PatternScanning.cpp` (16-byte chunks). -/
def ScanPattern_SSE2 (mem : Nat → Nat) (start end_ : Nat)
    (pattern : Option (Nat → Nat)) (pattern_len : Nat) : Nat :=
  scanSIMD 16 mem start end_ pattern pattern_len

/-- Embedding of `ScanPattern_AVX2` from `PatternScanning.cpp` (32-byte chunks). -/
def ScanPattern_AVX2 (mem : Nat → Nat) (start end_ : Nat)
    (pattern : Option (Nat → Nat)) (pattern_len : Nat) : Nat :=
  scanSIMD 32 mem start end_ pattern pattern_len

/-! ## Scan-loop lemmas -/

theorem matchAt_head {mem pat : Nat → Nat} {addr len : Nat}
    (hlen : 0 < len) (h : matchAt mem pat addr len = true) : mem addr = pat 0 := by
  induction len with
  | zero => omega
  | succ k ih =>
    rw [matchAt, Bool.and_eq_true, beq_iff_eq] at h
    rcases Nat.eq_zero_or_pos k with hk | hk
    · subst hk; simpa using h.1
    · exact ih hk h.2

theorem matchAt_iff {mem pat : Nat → Nat} {addr len : Nat} :
    matchAt mem pat addr len = true ↔ ∀ i, i < len → mem (addr + i) = pat i := by
  induction len with
  | zero => simp [matchAt]
  | succ k ih =>
    rw [matchAt, Bool.and_eq_true, beq_iff_eq, ih]
    constructor
    · rintro ⟨h1, h2⟩ i hi
      rcases Nat.lt_succ_iff_lt_or_eq.mp hi with h | h
      · exact h2 i h
      · subst h; exact h1
    · intro h
      exact ⟨h k (Nat.lt_succ_self k), fun i hi => h i (Nat.lt_succ_of_lt hi)⟩

theorem lsb_odd {m : Nat} (h : m % 2 = 1) : lsb m = 0 := by
  rw [lsb]
  simp [h, show m ≠ 0 by omega]

theorem lsb_two_mul {m : Nat} (h : m ≠ 0) : lsb (2 * m) = lsb m + 1 := by
  rw [lsb]
  simp [show 2 * m ≠ 0 by omega, show 2 * m % 2 = 0 by omega,
    show 2 * m / 2 = m by omega]

theorem and_pred_odd {m : Nat} (h : m % 2 = 1) : m &&& (m - 1) = m - 1 := by
  apply Nat.eq_of_testBit_eq
  intro i
  rw [Nat.testBit_and]
  cases i with
  | zero =>
    rw [Nat.testBit_zero, Nat.testBit_zero]
    simp [show (m - 1) % 2 = 0 by omega]
  | succ j =>
    rw [Nat.testBit_succ, Nat.testBit_succ, show m / 2 = (m - 1) / 2 by omega]
    exact Bool.and_self _

theorem and_pred_two_mul (m : Nat) :
    (2 * m) &&& (2 * m - 1) = 2 * (m &&& (m - 1)) := by
  rcases Nat.eq_zero_or_pos m with hm | hm
  · subst hm; rfl
  apply Nat.eq_of_testBit_eq
  intro i
  rw [Nat.testBit_and]
  cases i with
  | zero =>
    rw [Nat.testBit_zero, Nat.testBit_zero]
    simp [show 2 * m % 2 = 0 by omega, show 2 * (m &&& (m - 1)) % 2 = 0 by omega]
  | succ j =>
    rw [Nat.testBit_succ, Nat.testBit_succ, show 2 * m / 2 = m by omega,
      show (2 * m - 1) / 2 = m - 1 by omega, Nat.testBit_succ,
      show 2 * (m &&& (m - 1)) / 2 = m &&& (m - 1) by omega, Nat.testBit_and]

theorem maskLoop_zero (mem pat : Nat → Nat) (len addr : Nat) :
    maskLoop mem pat len addr 0 = none := by
  rw [maskLoop]
  simp

theorem maskLoop_pos (mem pat : Nat → Nat) (len addr : Nat) {mask : Nat}
    (h : mask ≠ 0) :
    maskLoop mem pat len addr mask =
      if matchAt mem pat (addr + lsb mask) len then some (addr + lsb mask)
      else maskLoop mem pat len addr (mask &&& (mask - 1)) := by
  rw [maskLoop, dif_neg h]

theorem maskLoop_shift (mem pat : Nat → Nat) (len : Nat) :
    ∀ m addr, maskLoop mem pat len addr (2 * m) = maskLoop mem pat len (addr + 1) m := by
  intro m
  induction m using Nat.strong_induction_on with
  | _ m ih =>
    intro addr
    rcases Nat.eq_zero_or_pos m with hm | hm
    · subst hm
      rw [show 2 * 0 = 0 from rfl, maskLoop_zero, maskLoop_zero]
    have hm' : m ≠ 0 := by omega
    rw [maskLoop_pos mem pat len addr (show 2 * m ≠ 0 by omega),
      maskLoop_pos mem pat len (addr + 1) hm', lsb_two_mul hm',
      show addr + (lsb m + 1) = addr + 1 + lsb m by omega]
    split
    · rfl
    · rw [and_pred_two_mul m]
      exact ih (m &&& (m - 1)) (and_pred_lt hm') addr

theorem maskLoop_movemask (mem pat : Nat → Nat) {len : Nat} (hlen : 0 < len) :
    ∀ w addr,
      maskLoop mem pat len addr (movemask mem (pat 0) addr w) =
        findFirst mem pat len addr w := by
  intro w
  induction w with
  | zero =>
    intro addr
    simp [movemask, maskLoop_zero, findFirst]
  | succ v ih =>
    intro addr
    rw [movemask, findFirst]
    by_cases he : mem addr = pat 0
    · have hmask : (if mem addr = pat 0 then 1 else 0) +
          2 * movemask mem (pat 0) (addr + 1) v =
          1 + 2 * movemask mem (pat 0) (addr + 1) v := by rw [if_pos he]
      rw [hmask]
      have hodd : (1 + 2 * movemask mem (pat 0) (addr + 1) v) % 2 = 1 := by omega
      rw [maskLoop_pos mem pat len addr (by omega), lsb_odd hodd, Nat.add_zero]
      split
      · rfl
      · rw [and_pred_odd hodd,
          show 1 + 2 * movemask mem (pat 0) (addr + 1) v - 1 =
            2 * movemask mem (pat 0) (addr + 1) v by omega,
          maskLoop_shift, ih]
    · have hmask : (if mem addr = pat 0 then 1 else 0) +
          2 * movemask mem (pat 0) (addr + 1) v =
          2 * movemask mem (pat 0) (addr + 1) v := by rw [if_neg he]; omega
      have hno : matchAt mem pat addr len = false := by
        cases hmA : matchAt mem pat addr len
        · rfl
        · exact absurd (matchAt_head hlen hmA) he
      rw [hmask, maskLoop_shift, ih, hno]
      simp

theorem findFirst_split (mem pat : Nat → Nat) (len : Nat) :
    ∀ a b addr,
      findFirst mem pat len addr (a + b) =
        match findFirst mem pat len addr a with
        | some c => some c
        | none => findFirst mem pat len (addr + a) b := by
  intro a
  induction a with
  | zero => intro b addr; simp [findFirst]
  | succ v ih =>
    intro b addr
    rw [show v + 1 + b = (v + b) + 1 by omega, findFirst, findFirst]
    split
    · rfl
    · rw [ih, show addr + (v + 1) = addr + 1 + v by omega]

theorem chunkLoop_ge (mem pat : Nat → Nat) (len w : Nat) :
    ∀ fuel addr simd_end, simd_end ≤ addr →
      chunkLoop mem pat len w addr simd_end fuel = none := by
  intro fuel
  cases fuel with
  | zero => intro addr simd_end _; rw [chunkLoop]
  | succ f =>
    intro addr simd_end h
    rw [chunkLoop]
    simp [show ¬ addr < simd_end by omega]

theorem chunkLoop_exact (mem pat : Nat → Nat) {len : Nat} (hlen : 0 < len)
    {w : Nat} (hw : 0 < w) :
    ∀ k addr fuel, k ≤ fuel →
      chunkLoop mem pat len w addr (addr + w * k) fuel =
        findFirst mem pat len addr (w * k) := by
  intro k
  induction k with
  | zero =>
    intro addr fuel _
    rw [chunkLoop_ge mem pat len w fuel addr _ (by omega)]
    simp [findFirst]
  | succ v ih =>
    intro addr fuel hf
    obtain ⟨f, rfl⟩ : ∃ f, fuel = f + 1 := ⟨fuel - 1, by omega⟩
    rw [chunkLoop]
    have hpos : addr < addr + w * (v + 1) := by
      have : 0 < w * (v + 1) := by positivity
      omega
    rw [if_pos hpos, maskLoop_movemask mem pat hlen w addr,
      show w * (v + 1) = w + w * v by ring, findFirst_split]
    have harith : addr + (w + w * v) = (addr + w) + w * v := by omega
    split
    · rfl
    · rw [harith, ih (addr + w) f (by omega)]

/-- Core equivalence: when `start` is a multiple of the chunk width `w`, the
SIMD scan at width `w` returns exactly what the scalar scan returns (the
chunks then tile `[start, simd_end)` without undershoot or overshoot). -/
theorem scanSIMD_eq_scalar (w : Nat) (hw : 0 < w) (mem : Nat → Nat)
    (start end_ : Nat) (pattern : Option (Nat → Nat)) (pattern_len : Nat)
    (halign : start % w = 0) :
    scanSIMD w mem start end_ pattern pattern_len =
      ScanPattern_Scalar mem start end_ pattern pattern_len := by
  rw [scanSIMD.eq_def, ScanPattern_Scalar.eq_def]
  cases pattern with
  | none => rfl
  | some pat =>
    by_cases hguard : pattern_len = 0 ∨ end_ ≤ start
    · simp [hguard]
    simp only [hguard, if_false]
    by_cases hse : scanEnd end_ pattern_len ≤ start
    · simp [hse]
    simp only [hse, if_false]
    have hlen : 0 < pattern_len := by omega
    set scan_end := scanEnd end_ pattern_len with hscan
    set simd_end := scan_end / w * w with hsimd
    have hmod : simd_end % w = 0 := by simp [hsimd, Nat.mul_mod_left]
    have h1 : simd_end + scan_end % w = scan_end := by
      rw [hsimd, Nat.mul_comm (scan_end / w) w, Nat.div_add_mod]
    have hgap : scan_end - simd_end < w := by
      have := Nat.mod_lt scan_end hw
      omega
    have hsle : simd_end ≤ scan_end := by omega
    have hstart_le : start ≤ simd_end := by
      by_contra hlt
      push_neg at hlt
      have hdvd : w ∣ start - simd_end :=
        Nat.dvd_sub' (Nat.dvd_of_mod_eq_zero halign) (Nat.dvd_of_mod_eq_zero hmod)
      have hge := Nat.le_of_dvd (by omega) hdvd
      omega
    obtain ⟨k, hk⟩ : ∃ k, simd_end = start + w * k := by
      have hdvd : w ∣ simd_end - start :=
        Nat.dvd_sub' (Nat.dvd_of_mod_eq_zero hmod) (Nat.dvd_of_mod_eq_zero halign)
      refine ⟨(simd_end - start) / w, ?_⟩
      have := Nat.mul_div_cancel' hdvd
      omega
    have hkfuel : k ≤ simd_end - start := by
      have : k ≤ w * k := Nat.le_mul_of_pos_left k hw
      omega
    rw [show (chunkLoop mem pat pattern_len w start simd_end (simd_end - start) :
        Option Nat) =
      chunkLoop mem pat pattern_len w start (start + w * k) (simd_end - start) by rw [← hk]]
    rw [chunkLoop_exact mem pat hlen hw k start (simd_end - start) hkfuel,
      show scan_end - start = w * k + (scan_end - simd_end) by omega,
      findFirst_split]
    rcases hff : findFirst mem pat pattern_len start (w * k) with _ | c
    · simp only [hff]
      rw [show start + w * k = simd_end from hk.symm]
    · simp only [hff]

theorem findFirst_sound (mem pat : Nat → Nat) (len : Nat) :
    ∀ fuel addr c, findFirst mem pat len addr fuel = some c →
      addr ≤ c ∧ c < addr + fuel ∧ matchAt mem pat c len = true := by
  intro fuel
  induction fuel with
  | zero => intro addr c h; rw [findFirst] at h; cases h
  | succ f ih =>
    intro addr c h
    rw [findFirst] at h
    by_cases hm : matchAt mem pat addr len = true
    · rw [if_pos hm] at h
      cases h
      exact ⟨Nat.le_refl _, by omega, hm⟩
    · rw [if_neg hm] at h
      obtain ⟨h1, h2, h3⟩ := ih (addr + 1) c h
      exact ⟨by omega, by omega, h3⟩

theorem findFirst_leftmost (mem pat : Nat → Nat) (len : Nat) :
    ∀ fuel addr q, addr ≤ q → q < addr + fuel →
      matchAt mem pat q len = true →
      (∀ p, addr ≤ p → p < q → matchAt mem pat p len = false) →
      findFirst mem pat len addr fuel = some q := by
  intro fuel
  induction fuel with
  | zero => intro addr q h1 h2 _ _; omega
  | succ f ih =>
    intro addr q h1 h2 hq hmin
    rw [findFirst]
    rcases Nat.eq_or_lt_of_le h1 with rfl | hlt
    · rw [if_pos hq]
    · rw [if_neg (by simp [hmin addr (Nat.le_refl _) hlt])]
      exact ih (addr + 1) q (by omega) (by omega) hq
        (fun p hp1 hp2 => hmin p (by omega) hp2)

theorem matchAt_congr {mem mem' pat : Nat → Nat} {addr : Nat} :
    ∀ len, (∀ i, i < len → mem' (addr + i) = mem (addr + i)) →
      matchAt mem' pat addr len = matchAt mem pat addr len := by
  intro len
  induction len with
  | zero => intro _; rfl
  | succ k ih =>
    intro h
    rw [matchAt, matchAt, h k (Nat.lt_succ_self k),
      ih (fun i hi => h i (Nat.lt_succ_of_lt hi))]

theorem findFirst_congr {mem mem' pat : Nat → Nat} {len : Nat} :
    ∀ fuel addr, (∀ a, addr ≤ a → a < addr + fuel + len - 1 → mem' a = mem a) →
      findFirst mem' pat len addr fuel = findFirst mem pat len addr fuel := by
  intro fuel
  induction fuel with
  | zero => intro addr _; rfl
  | succ f ih =>
    intro addr h
    rw [findFirst, findFirst,
      matchAt_congr len (fun i hi => h (addr + i) (by omega) (by omega))]
    split
    · rfl
    · exact ih (addr + 1) (fun a ha1 ha2 => h a (by omega) (by omega))

/-- When `pattern_len ≤ end` (and both fit in 64 bits) the boundary
`end - pattern_len + 1` does not wrap and equals the mathematical value. -/
theorem scanEnd_no_underflow {end_ pattern_len : Nat} (h1 : 0 < pattern_len)
    (h2 : pattern_len ≤ end_) (h3 : end_ < W) :
    scanEnd end_ pattern_len = end_ + 1 - pattern_len := by
  have hW : (W : Nat) = 18446744073709551616 := by norm_num [W]
  have hlt : pattern_len % W = pattern_len := Nat.mod_eq_of_lt (by omega)
  rw [scanEnd, hlt,
    show end_ + 1 + (W - pattern_len) = (end_ + 1 - pattern_len) + W by omega,
    Nat.add_mod_right]
  exact Nat.mod_eq_of_lt (by omega)

/-- Unfolding of the scalar scanner in the non-degenerate case. -/
theorem scalar_unfold (mem pat : Nat → Nat) (start end_ len : Nat)
    (hlen : len ≠ 0) (hlt : start < end_) (hs : start < scanEnd end_ len) :
    ScanPattern_Scalar mem start end_ (some pat) len =
      match findFirst mem pat len start (scanEnd end_ len - start) with
      | some a => a
      | none => 0 := by
  rw [ScanPattern_Scalar.eq_def]
  have h1 : ¬(len = 0 ∨ end_ ≤ start) := by omega
  have h2 : ¬ scanEnd end_ len ≤ start := by omega
  simp only [h1, h2, if_false]

/-- The scalar scanner returns `0` when the effective boundary check fails. -/
theorem scalar_small (mem pat : Nat → Nat) (start end_ len : Nat)
    (hs : scanEnd end_ len ≤ start) :
    ScanPattern_Scalar mem start end_ (some pat) len = 0 := by
  rw [ScanPattern_Scalar.eq_def]
  by_cases h1 : len = 0 ∨ end_ ≤ start
  · simp [h1]
  · simp only [h1, if_false, if_pos hs]

/-- The scan contract of §8 of the spec for a result value `r`: not-found, or
an in-range address where the whole pattern matches. -/
def ScanResultOk (mem pat : Nat → Nat) (start end_ pattern_len r : Nat) : Prop :=
  r = 0 ∨ (start ≤ r ∧ r < end_ - pattern_len + 1 ∧
    matchAt mem pat r pattern_len = true)

theorem scalar_result_ok (mem pat : Nat → Nat) (start end_ pattern_len : Nat)
    (hlen : 0 < pattern_len) (hle : pattern_len ≤ end_) (hW : end_ < W) :
    ScanResultOk mem pat start end_ pattern_len
      (ScanPattern_Scalar mem start end_ (some pat) pattern_len) := by
  unfold ScanResultOk
  have hne := scanEnd_no_underflow hlen hle hW
  by_cases hs : scanEnd end_ pattern_len ≤ start
  · rw [scalar_small mem pat start end_ pattern_len hs]
    exact Or.inl rfl
  · push_neg at hs
    rw [scalar_unfold mem pat start end_ pattern_len (by omega) (by omega) hs]
    rcases hff : findFirst mem pat pattern_len start (scanEnd end_ pattern_len - start)
      with _ | c
    · exact Or.inl rfl
    · obtain ⟨h1, h2, h3⟩ := findFirst_sound mem pat pattern_len _ start c hff
      refine Or.inr ?_
      show start ≤ c ∧ c < end_ - pattern_len + 1 ∧
        matchAt mem pat c pattern_len = true
      exact ⟨h1, by omega, h3⟩

theorem scalar_frame (mem mem' pat : Nat → Nat) (start end_ pattern_len : Nat)
    (hlen : 0 < pattern_len) (hle : pattern_len ≤ end_) (hW : end_ < W)
    (hagree : ∀ a, start ≤ a → a < end_ → mem' a = mem a) :
    ScanPattern_Scalar mem' start end_ (some pat) pattern_len =
      ScanPattern_Scalar mem start end_ (some pat) pattern_len := by
  have hne := scanEnd_no_underflow hlen hle hW
  by_cases hs : scanEnd end_ pattern_len ≤ start
  · rw [scalar_small mem' pat start end_ pattern_len hs,
      scalar_small mem pat start end_ pattern_len hs]
  · push_neg at hs
    rw [scalar_unfold mem' pat start end_ pattern_len (by omega) (by omega) hs,
      scalar_unfold mem pat start end_ pattern_len (by omega) (by omega) hs,
      findFirst_congr _ start (fun a ha1 ha2 => hagree a ha1 (by omega))]

/-- Memory used by the counterexamples: bytes 16, 17 and 18 hold `7`,
everything else holds `0`. -/
def cexMem : Nat → Nat := fun a => if 16 ≤ a ∧ a ≤ 18 then 7 else 0

/-- Pattern used by the counterexamples: every byte is `7`. -/
def cexPat : Nat → Nat := fun _ => 7

/-- C1 (amended): whenever the scan start is 32-byte aligned — which holds for
the orchestrator's actual ranges, `module base + 0x1000` with a page-aligned
base — the baseline scalar scanner, the SSE2 scanner and the AVX2 scanner
return the identical result for every pattern, pattern length and range. -/
theorem C1_tiers_agree (mem : Nat → Nat) (start end_ : Nat)
    (pattern : Option (Nat → Nat)) (pattern_len : Nat)
    (halign : start % 32 = 0) :
    ScanPattern_SSE2 mem start end_ pattern pattern_len =
      ScanPattern_Scalar mem start end_ pattern pattern_len ∧
    ScanPattern_AVX2 mem start end_ pattern pattern_len =
      ScanPattern_Scalar mem start end_ pattern pattern_len :=
  ⟨scanSIMD_eq_scalar 16 (by norm_num) mem start end_ pattern pattern_len (by omega),
   scanSIMD_eq_scalar 32 (by norm_num) mem start end_ pattern pattern_len halign⟩

/-- Witness for C1 at a concrete aligned input. -/
theorem C1_tiers_agree_witness :
    (32 : Nat) % 32 = 0 ∧
    (ScanPattern_SSE2 cexMem 32 64 (some cexPat) 2 =
       ScanPattern_Scalar cexMem 32 64 (some cexPat) 2 ∧
     ScanPattern_AVX2 cexMem 32 64 (some cexPat) 2 =
       ScanPattern_Scalar cexMem 32 64 (some cexPat) 2) :=
  ⟨by decide, C1_tiers_agree cexMem 32 64 (some cexPat) 2 (by decide)⟩

/-- Counterexample to C1 as stated: on the range `[17, 20)` with the two-byte
pattern `7 7`, the SSE2 scanner's tail loop restarts at `simd_end = 16`,
below `start`, finds the pattern at address 16 and returns it, while the
scalar scanner scans only `[17, 19)` and returns 17. -/
theorem C1_counterexample :
    ScanPattern_SSE2 cexMem 17 20 (some cexPat) 2 = 16 ∧
    ScanPattern_Scalar cexMem 17 20 (some cexPat) 2 = 17 ∧
    ScanPattern_SSE2 cexMem 17 20 (some cexPat) 2 ≠
      ScanPattern_Scalar cexMem 17 20 (some cexPat) 2 := by
  decide

/-- C2 (amended): for a non-empty pattern whose length does not exceed `end`
(so the boundary `end - pattern_len + 1` does not wrap) and, for the SIMD
tiers, a 32-byte aligned `start`, every tier returns either the not-found
value `0` or an address `a` with `start ≤ a < end - pattern_len + 1` at which
the whole pattern matches; and each tier's result depends only on the bytes
in `[start, end)` — the shallow form of "no comparison reads any byte at or
beyond `end`" (reads below `start` are likewise excluded). -/
theorem C2_scan_contract (mem pat : Nat → Nat) (start end_ pattern_len : Nat)
    (hlen : 0 < pattern_len) (hle : pattern_len ≤ end_) (hW : end_ < W)
    (halign : start % 32 = 0) :
    ScanResultOk mem pat start end_ pattern_len
      (ScanPattern_Scalar mem start end_ (some pat) pattern_len) ∧
    ScanResultOk mem pat start end_ pattern_len
      (ScanPattern_SSE2 mem start end_ (some pat) pattern_len) ∧
    ScanResultOk mem pat start end_ pattern_len
      (ScanPattern_AVX2 mem start end_ (some pat) pattern_len) ∧
    (∀ mem' : Nat → Nat, (∀ a, start ≤ a → a < end_ → mem' a = mem a) →
      ScanPattern_Scalar mem' start end_ (some pat) pattern_len =
        ScanPattern_Scalar mem start end_ (some pat) pattern_len ∧
      ScanPattern_SSE2 mem' start end_ (some pat) pattern_len =
        ScanPattern_SSE2 mem start end_ (some pat) pattern_len ∧
      ScanPattern_AVX2 mem' start end_ (some pat) pattern_len =
        ScanPattern_AVX2 mem start end_ (some pat) pattern_len) := by
  have h16 : ScanPattern_SSE2 mem start end_ (some pat) pattern_len =
      ScanPattern_Scalar mem start end_ (some pat) pattern_len :=
    scanSIMD_eq_scalar 16 (by norm_num) mem start end_ (some pat) pattern_len (by omega)
  have h32 : ScanPattern_AVX2 mem start end_ (some pat) pattern_len =
      ScanPattern_Scalar mem start end_ (some pat) pattern_len :=
    scanSIMD_eq_scalar 32 (by norm_num) mem start end_ (some pat) pattern_len halign
  refine ⟨scalar_result_ok mem pat start end_ pattern_len hlen hle hW, ?_, ?_, ?_⟩
  · rw [h16]; exact scalar_result_ok mem pat start end_ pattern_len hlen hle hW
  · rw [h32]; exact scalar_result_ok mem pat start end_ pattern_len hlen hle hW
  · intro mem' hagree
    have hs : ScanPattern_Scalar mem' start end_ (some pat) pattern_len =
        ScanPattern_Scalar mem start end_ (some pat) pattern_len :=
      scalar_frame mem mem' pat start end_ pattern_len hlen hle hW hagree
    have h16' : ScanPattern_SSE2 mem' start end_ (some pat) pattern_len =
        ScanPattern_Scalar mem' start end_ (some pat) pattern_len :=
      scanSIMD_eq_scalar 16 (by norm_num) mem' start end_ (some pat) pattern_len
        (by omega)
    have h32' : ScanPattern_AVX2 mem' start end_ (some pat) pattern_len =
        ScanPattern_Scalar mem' start end_ (some pat) pattern_len :=
      scanSIMD_eq_scalar 32 (by norm_num) mem' start end_ (some pat) pattern_len
        halign
    exact ⟨hs, by rw [h16, h16', hs], by rw [h32, h32', hs]⟩

/-- Witness for C2 at a concrete input (aligned start, in-range pattern). -/
theorem C2_scan_contract_witness :
    (0 < 2 ∧ 2 ≤ 64 ∧ 64 < W ∧ (32 : Nat) % 32 = 0) ∧
    ScanResultOk cexMem cexPat 32 64 2
      (ScanPattern_Scalar cexMem 32 64 (some cexPat) 2) ∧
    ScanResultOk cexMem cexPat 32 64 2
      (ScanPattern_SSE2 cexMem 32 64 (some cexPat) 2) :=
  ⟨⟨by norm_num, by norm_num, by norm_num [W], by norm_num⟩,
   (C2_scan_contract cexMem cexPat 32 64 2 (by norm_num) (by norm_num)
      (by norm_num [W]) (by norm_num)).1,
   (C2_scan_contract cexMem cexPat 32 64 2 (by norm_num) (by norm_num)
      (by norm_num [W]) (by norm_num)).2.1⟩

/-- Counterexample to C2 as stated: on range `[17, 20)` with the two-byte
pattern `7 7`, the SSE2 scanner returns 16, which is neither the not-found
value `0` nor an address `≥ start` — its tail loop read and matched memory
below `start` (and, symmetrically, chunk loads can read beyond `end`). -/
theorem C2_counterexample :
    ¬ (ScanPattern_SSE2 cexMem 17 20 (some cexPat) 2 = 0 ∨
       17 ≤ ScanPattern_SSE2 cexMem 17 20 (some cexPat) 2) := by
  decide

/-- C3 (amended): if the pattern occurs at `q` inside the valid candidate
range `[start, end - pattern_len + 1)` and at no earlier in-range address,
then the scalar tier returns exactly `q`, and the SSE2/AVX2 tiers return `q`
as well provided `start` is 32-byte aligned. -/
theorem C3_leftmost_match (mem pat : Nat → Nat)
    (start end_ pattern_len q : Nat)
    (hlen : 0 < pattern_len) (hW : end_ < W)
    (hql : start ≤ q) (hqr : q + pattern_len ≤ end_)
    (hmatch : matchAt mem pat q pattern_len = true)
    (hmin : ∀ p, start ≤ p → p < q → matchAt mem pat p pattern_len = false) :
    ScanPattern_Scalar mem start end_ (some pat) pattern_len = q ∧
    (start % 32 = 0 →
      ScanPattern_SSE2 mem start end_ (some pat) pattern_len = q ∧
      ScanPattern_AVX2 mem start end_ (some pat) pattern_len = q) := by
  have hle : pattern_len ≤ end_ := by omega
  have hne := scanEnd_no_underflow hlen hle hW
  have hscal : ScanPattern_Scalar mem start end_ (some pat) pattern_len = q := by
    rw [scalar_unfold mem pat start end_ pattern_len (by omega) (by omega) (by omega),
      findFirst_leftmost mem pat pattern_len _ start q hql (by omega) hmatch hmin]
  refine ⟨hscal, fun halign => ?_⟩
  rw [ScanPattern_SSE2, ScanPattern_AVX2,
    scanSIMD_eq_scalar 16 (by norm_num) mem start end_ (some pat) pattern_len (by omega),
    scanSIMD_eq_scalar 32 (by norm_num) mem start end_ (some pat) pattern_len halign]
  exact ⟨hscal, hscal⟩

/-- Memory with a single two-byte pattern occurrence at address 37. -/
def onceMem : Nat → Nat := fun a => if a = 37 ∨ a = 38 then 9 else 0

/-- Pattern whose bytes are all `9`, matching `onceMem` only at 37. -/
def oncePat : Nat → Nat := fun _ => 9

/-- Witness for C3 at a concrete input: the single occurrence at 37 inside
`[32, 63)` is returned by all three tiers. -/
theorem C3_leftmost_match_witness :
    ((0 : Nat) < 2 ∧ (64 : Nat) < W ∧ (32 : Nat) ≤ 37 ∧ 37 + 2 ≤ 64 ∧
      matchAt onceMem oncePat 37 2 = true) ∧
    ScanPattern_Scalar onceMem 32 64 (some oncePat) 2 = 37 ∧
    (ScanPattern_SSE2 onceMem 32 64 (some oncePat) 2 = 37 ∧
     ScanPattern_AVX2 onceMem 32 64 (some oncePat) 2 = 37) := by
  have h := C3_leftmost_match onceMem oncePat 32 64 2 37 (by norm_num)
    (by norm_num [W]) (by norm_num) (by norm_num) (by decide)
    (fun p hp1 hp2 => by interval_cases p <;> decide)
  exact ⟨⟨by norm_num, by norm_num [W], by norm_num, by norm_num, by decide⟩,
    h.1, h.2 (by norm_num)⟩

/-- Counterexample to C3 as stated: on range `[17, 20)` the pattern `7 7`
occurs in-range at 17 (the leftmost in-range occurrence), yet the SSE2
scanner returns 16 — an out-of-range address — instead of 17. -/
theorem C3_counterexample :
    matchAt cexMem cexPat 17 2 = true ∧ 17 + 2 ≤ 20 ∧
    ScanPattern_SSE2 cexMem 17 20 (some cexPat) 2 = 16 ∧
    ScanPattern_SSE2 cexMem 17 20 (some cexPat) 2 ≠ 17 := by
  decide

/-- Memory whose every byte is `4`, so the two-byte pattern `4 4` matches
already at address 0. -/
def zeroHitMem : Nat → Nat := fun _ => 4

/-- Pattern whose bytes are all `4`. -/
def zeroHitPat : Nat → Nat := fun _ => 4

/-- C10: every scanner tier is total on degenerate inputs — a null pattern
pointer, a zero pattern length, or `start ≥ end` each yield the not-found
value `0`, for every memory image (so no byte of the range influences the
result); and `0` doubles as the not-found sentinel, so a genuine match at
address 0 is also reported as `0` (last conjunct). -/
theorem C10_degenerate_inputs :
    (∀ (mem : Nat → Nat) start end_ len,
      ScanPattern_Scalar mem start end_ none len = 0 ∧
      ScanPattern_SSE2 mem start end_ none len = 0 ∧
      ScanPattern_AVX2 mem start end_ none len = 0) ∧
    (∀ (mem : Nat → Nat) start end_ (pat : Nat → Nat),
      ScanPattern_Scalar mem start end_ (some pat) 0 = 0 ∧
      ScanPattern_SSE2 mem start end_ (some pat) 0 = 0 ∧
      ScanPattern_AVX2 mem start end_ (some pat) 0 = 0) ∧
    (∀ (mem : Nat → Nat) start end_ (pat : Nat → Nat) len, end_ ≤ start →
      ScanPattern_Scalar mem start end_ (some pat) len = 0 ∧
      ScanPattern_SSE2 mem start end_ (some pat) len = 0 ∧
      ScanPattern_AVX2 mem start end_ (some pat) len = 0) ∧
    (matchAt zeroHitMem zeroHitPat 0 2 = true ∧
      ScanPattern_Scalar zeroHitMem 0 8 (some zeroHitPat) 2 = 0) := by
  refine ⟨fun mem start end_ len => ⟨rfl, rfl, rfl⟩,
    fun mem start end_ pat => ⟨?_, ?_, ?_⟩,
    fun mem start end_ pat len h => ⟨?_, ?_, ?_⟩, by decide, by decide⟩
  · simp [ScanPattern_Scalar.eq_def]
  · simp [ScanPattern_SSE2, scanSIMD.eq_def]
  · simp [ScanPattern_AVX2, scanSIMD.eq_def]
  · simp [ScanPattern_Scalar.eq_def, h]
  · simp [ScanPattern_SSE2, scanSIMD.eq_def, h]
  · simp [ScanPattern_AVX2, scanSIMD.eq_def, h]

/-- Witness for C10's hypothesis-bearing conjunct at a concrete input. -/
theorem C10_degenerate_inputs_witness :
    (3 : Nat) ≤ 5 ∧
    ScanPattern_Scalar zeroHitMem 5 3 (some zeroHitPat) 2 = 0 ∧
    ScanPattern_SSE2 zeroHitMem 5 3 (some zeroHitPat) 2 = 0 ∧
    ScanPattern_AVX2 zeroHitMem 5 3 (some zeroHitPat) 2 = 0 :=
  ⟨by norm_num,
   (C10_degenerate_inputs.2.2.1 zeroHitMem 5 3 zeroHitPat 2 (by norm_num)).1,
   (C10_degenerate_inputs.2.2.1 zeroHitMem 5 3 zeroHitPat 2 (by norm_num)).2.1,
   (C10_degenerate_inputs.2.2.1 zeroHitMem 5 3 zeroHitPat 2 (by norm_num)).2.2⟩

/-! ## The fault-isolated scan orchestrator (`GetCommentAddress`)

`GetCommentAddress` in `PatternScanning.cpp` runs the widest allowed tier
inside a `__try`/`__except` block, falling through to narrower tiers.  We
model each tier's scan attempt as an oracle outcome (a returned value or a
raised structured exception code) and embed the handler skeleton exactly:

* AVX2 block: filter accepts `EXCEPTION_ACCESS_VIOLATION` and
  `EXCEPTION_ILLEGAL_INSTRUCTION`, clears `cpu.avx2`, resets `result`.
* SSE2 block: filter accepts only `EXCEPTION_ACCESS_VIOLATION`
  (`EXCEPTION_CONTINUE_SEARCH` for anything else — the exception escapes);
  it does not clear `cpu.sse2`.
* Scalar block: `__except(EXCEPTION_EXECUTE_HANDLER)` catches everything and
  returns `std::nullopt`.

The returned pair carries the final capability flags so that tier disabling
is observable. -/

/-- Structured exception codes relevant to the orchestrator's filters. -/
inductive ExceptionCode where
  | accessViolation
  | illegalInstruction
  | other
deriving DecidableEq

/-- Outcome of one tier's scan attempt: a returned address (possibly the
not-found value 0) or a hardware fault delivered as a structured exception. -/
inductive ScanOutcome where
  | ok (result : Nat)
  | fault (code : ExceptionCode)

/-- Embedding of `CPUFeatures` from `PatternScanning.h`. -/
structure CPUFeatures where
  sse2 : Bool
  avx2 : Bool
deriving DecidableEq

/-- Overall outcome of `GetCommentAddress`: a found address, `std::nullopt`
(either no tier matched, or the scalar attempt faulted), or an exception
that no filter accepted and that propagates out of the function. -/
inductive LocateResult where
  | found (address : Nat)
  | notFound
  | aborted
  | unhandled (code : ExceptionCode)
deriving DecidableEq

/-- The final scalar attempt of `GetCommentAddress`: any fault is caught by
`__except(EXCEPTION_EXECUTE_HANDLER)` and the function returns
`std::nullopt`; otherwise a nonzero result is the found address. -/
def runScalarTier (cpu : CPUFeatures) (scalarScan : ScanOutcome) :
    LocateResult × CPUFeatures :=
  match scalarScan with
  | .ok r => (if r ≠ 0 then .found r else .notFound, cpu)
  | .fault _ => (.aborted, cpu)

/-- The SSE2 attempt of `GetCommentAddress` (entered when `cpu.sse2` is set
and no result was produced yet): only an access violation is filtered, and
`cpu.sse2` is left set. -/
def runSSE2Tier (cpu : CPUFeatures) (sse2Scan scalarScan : ScanOutcome) :
    LocateResult × CPUFeatures :=
  if cpu.sse2 then
    match sse2Scan with
    | .ok r => if r ≠ 0 then (.found r, cpu) else runScalarTier cpu scalarScan
    | .fault c =>
      if c = .accessViolation then runScalarTier cpu scalarScan
      else (.unhandled c, cpu)
  else runScalarTier cpu scalarScan

/-- The fault-handling skeleton of `GetCommentAddress` from
`PatternScanning.cpp`: AVX2 attempt (when allowed), then SSE2, then scalar,
with per-tier `__except` filters as in the source. -/
def GetCommentAddress (cpu : CPUFeatures)
    (avx2Scan sse2Scan scalarScan : ScanOutcome) : LocateResult × CPUFeatures :=
  if cpu.avx2 then
    match avx2Scan with
    | .ok r => if r ≠ 0 then (.found r, cpu) else runSSE2Tier cpu sse2Scan scalarScan
    | .fault c =>
      if c = .accessViolation ∨ c = .illegalInstruction then
        runSSE2Tier { cpu with avx2 := false } sse2Scan scalarScan
      else (.unhandled c, cpu)
  else runSSE2Tier cpu sse2Scan scalarScan

/-- C4 (amended): an AVX2 attempt that faults with an access violation or an
illegal instruction disables AVX2 for the rest of the call and falls through
to the SSE2 attempt, without propagating; an SSE2 attempt that faults with an
access violation falls through to the scalar attempt; but an SSE2 fault with
any other code — including an illegal instruction — propagates out of the
orchestrator unhandled (and `cpu.sse2` is never cleared); any fault at the
scalar (baseline) tier is caught and makes the locate operation report
failure. -/
theorem C4_fault_degradation :
    (∀ (cpu : CPUFeatures) (s k : ScanOutcome) (c : ExceptionCode),
      cpu.avx2 = true → (c = .accessViolation ∨ c = .illegalInstruction) →
      GetCommentAddress cpu (.fault c) s k =
        runSSE2Tier { cpu with avx2 := false } s k) ∧
    (∀ (cpu : CPUFeatures) (k : ScanOutcome), cpu.sse2 = true →
      runSSE2Tier cpu (.fault .accessViolation) k = runScalarTier cpu k) ∧
    (∀ (cpu : CPUFeatures) (k : ScanOutcome) (c : ExceptionCode),
      cpu.sse2 = true → c ≠ .accessViolation →
      runSSE2Tier cpu (.fault c) k = (.unhandled c, cpu)) ∧
    (∀ (cpu : CPUFeatures) (c : ExceptionCode),
      runScalarTier cpu (.fault c) = (.aborted, cpu)) := by
  refine ⟨?_, ?_, ?_, fun cpu c => rfl⟩
  · intro cpu s k c h1 h2
    rcases h2 with rfl | rfl <;> simp [GetCommentAddress, h1]
  · intro cpu k h
    simp [runSSE2Tier, h]
  · intro cpu k c h hc
    simp [runSSE2Tier, h, hc]

/-- Witness for C4's amended statement at concrete inputs. -/
theorem C4_fault_degradation_witness :
    ((⟨true, true⟩ : CPUFeatures).avx2 = true) ∧
    GetCommentAddress ⟨true, true⟩ (.fault .illegalInstruction) (.ok 7) (.ok 7) =
      runSSE2Tier ⟨true, false⟩ (.ok 7) (.ok 7) ∧
    runScalarTier ⟨false, false⟩ (.fault .other) = (.aborted, ⟨false, false⟩) :=
  ⟨rfl,
   C4_fault_degradation.1 ⟨true, true⟩ (.ok 7) (.ok 7) .illegalInstruction rfl
     (Or.inr rfl),
   C4_fault_degradation.2.2.2 ⟨false, false⟩ .other⟩

/-- Counterexample to C4 as stated: with AVX2 unavailable and SSE2 available,
an illegal-instruction fault during the SSE2 attempt is not filtered
(`EXCEPTION_CONTINUE_SEARCH`) and escapes the orchestrator, even though the
scalar tier — which is never reached — would have found the pattern at 4096;
the fault neither disables the tier nor falls through. -/
theorem C4_counterexample :
    GetCommentAddress ⟨true, false⟩ (.ok 0) (.fault .illegalInstruction) (.ok 4096) =
      (.unhandled .illegalInstruction, ⟨true, false⟩) ∧
    runScalarTier ⟨true, false⟩ (.ok 4096) = (.found 4096, ⟨true, false⟩) := by
  decide

/-! ## Hook installation (`Hook.cpp`) and the compatibility verifier

The host image is the same byte-addressed memory `Nat → Nat`.  The hook
buffer returned by `VirtualAlloc(nullptr, ...)` is a freshly mapped region
disjoint from the host image, so the Xbyak code generation writing into it
does not touch the modeled host bytes; only `WriteLongJmp64` mutates them.
`VirtualProtect` success is an environment oracle (`protectOk`); restoring
the original protection and `FlushInstructionCache` do not change memory
contents and are omitted. -/

/-- Constant `kMinJumpSize` from `Hook.cpp` (0xD): 13 bytes for `mov r11, imm64; jmp r11`. -/
def kMinJumpSize : Nat := 13

/-- Constant `kHookBufferSize` from `Hook.cpp` (0x100). -/
def kHookBufferSize : Nat := 256

/-- Constant `kCommentBytes` from `PatternScanning.h`: the 18-byte signature. -/
def kCommentBytes : List Nat :=
  [0xF3, 0x0F, 0x59, 0xF6,
   0x0F, 0xB6, 0xEB,
   0xB8, 0x01, 0x00, 0x00, 0x00,
   0x0F, 0x2F, 0xF0,
   0x0F, 0x43, 0xE8]

/-- Constant `kCommentByteCount` from `PatternScanning.h` (= 18). -/
def kCommentByteCount : Nat := kCommentBytes.length

/-- Byte `i` of the signature, as a function for `memcmp` comparisons. -/
def sigByte (i : Nat) : Nat := kCommentBytes.getD i 0

/-- Byte `i` of the 13-byte trampoline payload after the source patches the
destination into offsets 2–9 (`*(void**)(payload + 2) = destination`):
`49 BB <destination, 8 bytes little-endian> 41 FF E3`. -/
def payloadByte (destination i : Nat) : Nat :=
  if i = 0 then 0x49
  else if i = 1 then 0xBB
  else if i < 10 then destination / 2 ^ (8 * (i - 2)) % 256
  else if i = 10 then 0x41
  else if i = 11 then 0xFF
  else 0xE3

/-- Embedding of `WriteLongJmp64` from `Hook.cpp`: refuses lengths below `kMinJumpSize`;
if `VirtualProtect` fails it logs and returns without writing; otherwise it
copies the 13 payload bytes to `source` and pads `[source+13, source+length)`
with `0x90` NOPs.  The function returns the updated memory (its C `void`
return is the heart of claim C5). -/
def WriteLongJmp64 (mem : Nat → Nat) (protectOk : Bool)
    (source destination length : Nat) : Nat → Nat :=
  if length < kMinJumpSize then mem
  else if !protectOk then mem
  else fun a =>
    if source ≤ a ∧ a < source + 13 then payloadByte destination (a - source)
    else if source + 13 ≤ a ∧ a < source + length then 0x90
    else mem a

/-- Embedding of `IsBinaryCompatible` from `Hook.cpp`: a null address fails immediately;
otherwise `memcmp` the 18 live bytes against `kCommentBytes`. -/
def IsBinaryCompatible (mem : Nat → Nat) (commentAddress : Nat) : Bool :=
  if commentAddress = 0 then false
  else matchAt mem sigByte commentAddress kCommentByteCount

/-- Environment oracles for one `InstallCommentHook` run: whether
`VirtualAlloc` succeeds, the size `code.getSize()` of the generated hook
code, and whether `VirtualProtect`-to-writable succeeds. -/
structure InstallEnv where
  allocOk : Bool
  codeSize : Nat
  protectOk : Bool

/-- Embedding of `InstallCommentHook` from `Hook.cpp`: allocate the hook buffer, generate
the hook code, abort (returning `false`) if allocation fails or the generated
code exceeds `kHookBufferSize`, then call `WriteLongJmp64` over the
`kCommentByteCount`-byte signature region and return `true` — regardless of
whether `WriteLongJmp64` actually wrote (it returns `void`). -/
def InstallCommentHook (mem : Nat → Nat) (env : InstallEnv)
    (commentAddress hookBufferAddr : Nat) : Bool × (Nat → Nat) :=
  if !env.allocOk then (false, mem)
  else if kHookBufferSize < env.codeSize then (false, mem)
  else (true, WriteLongJmp64 mem env.protectOk commentAddress hookBufferAddr
    kCommentByteCount)

theorem WriteLongJmp64_eq (mem : Nat → Nat) (source dest length : Nat)
    (hlen : kMinJumpSize ≤ length) :
    WriteLongJmp64 mem true source dest length = fun a =>
      if source ≤ a ∧ a < source + 13 then payloadByte dest (a - source)
      else if source + 13 ≤ a ∧ a < source + length then 0x90
      else mem a := by
  rw [WriteLongJmp64, if_neg (by omega)]
  simp

theorem WriteLongJmp64_protect_fail (mem : Nat → Nat)
    (source dest length : Nat) :
    WriteLongJmp64 mem false source dest length = mem := by
  rw [WriteLongJmp64]
  split <;> simp

/-- C7: when every step of a hook installation succeeds (allocation, size
check, protection change), exactly the `kCommentByteCount = 18` bytes at the
target are modified: bytes 0–12 are the trampoline
`49 BB <8-byte little-endian hook buffer address> 41 FF E3`
(`mov r11, dest; jmp r11`), bytes 13–17 are `0x90` NOPs, and every byte
outside `[target, target + 18)` is unchanged; the call reports success. -/
theorem C7_install_exact_bytes (mem : Nat → Nat) (env : InstallEnv)
    (target buf : Nat) (h1 : env.allocOk = true)
    (h2 : env.codeSize ≤ kHookBufferSize) (h3 : env.protectOk = true) :
    (InstallCommentHook mem env target buf).1 = true ∧
    ((InstallCommentHook mem env target buf).2 target = 0x49 ∧
     (InstallCommentHook mem env target buf).2 (target + 1) = 0xBB ∧
     (∀ i, i < 8 →
       (InstallCommentHook mem env target buf).2 (target + 2 + i) =
         buf / 2 ^ (8 * i) % 256) ∧
     (InstallCommentHook mem env target buf).2 (target + 10) = 0x41 ∧
     (InstallCommentHook mem env target buf).2 (target + 11) = 0xFF ∧
     (InstallCommentHook mem env target buf).2 (target + 12) = 0xE3) ∧
    (∀ i, 13 ≤ i → i < 18 →
      (InstallCommentHook mem env target buf).2 (target + i) = 0x90) ∧
    (∀ a, a < target ∨ target + 18 ≤ a →
      (InstallCommentHook mem env target buf).2 a = mem a) := by
  have hinst : InstallCommentHook mem env target buf =
      (true, WriteLongJmp64 mem true target buf kCommentByteCount) := by
    rw [InstallCommentHook, h1, h3]
    simp [show ¬ kHookBufferSize < env.codeSize by omega]
  have hcount : kCommentByteCount = 18 := rfl
  rw [hinst, hcount, WriteLongJmp64_eq mem target buf 18
    (by rw [kMinJumpSize]; omega)]
  refine ⟨rfl, ⟨?_, ?_, ?_, ?_, ?_, ?_⟩, ?_, ?_⟩
  · simp [payloadByte]
  · simp [payloadByte, show target ≤ target + 1 ∧ target + 1 < target + 13 by omega]
  · intro i hi
    have hcond : target ≤ target + 2 + i ∧ target + 2 + i < target + 13 := by omega
    simp only [hcond, and_self, if_true, if_pos]
    rw [show target + 2 + i - target = i + 2 by omega, payloadByte,
      if_neg (by omega), if_neg (by omega), if_pos (by omega),
      show i + 2 - 2 = i by omega]
  · simp [payloadByte, show target ≤ target + 10 ∧ target + 10 < target + 13 by omega,
      show target + 10 - target = 10 by omega]
  · simp [payloadByte, show target ≤ target + 11 ∧ target + 11 < target + 13 by omega,
      show target + 11 - target = 11 by omega]
  · simp [payloadByte, show target ≤ target + 12 ∧ target + 12 < target + 13 by omega,
      show target + 12 - target = 12 by omega]
  · intro i hi1 hi2
    show (if target ≤ target + i ∧ target + i < target + 13 then
        payloadByte buf (target + i - target)
      else if target + 13 ≤ target + i ∧ target + i < target + 18 then 0x90
      else mem (target + i)) = 0x90
    rw [if_neg (by omega), if_pos (by omega)]
  · intro a ha
    show (if target ≤ a ∧ a < target + 13 then payloadByte buf (a - target)
      else if target + 13 ≤ a ∧ a < target + 18 then 0x90 else mem a) = mem a
    rw [if_neg (by omega), if_neg (by omega)]

/-- Witness for C7 at a concrete input. -/
theorem C7_install_exact_bytes_witness :
    ((⟨true, 100, true⟩ : InstallEnv).allocOk = true ∧
     (⟨true, 100, true⟩ : InstallEnv).codeSize ≤ kHookBufferSize ∧
     (⟨true, 100, true⟩ : InstallEnv).protectOk = true) ∧
    (InstallCommentHook zeroHitMem ⟨true, 100, true⟩ 4096 3419144192).1 = true ∧
    (InstallCommentHook zeroHitMem ⟨true, 100, true⟩ 4096 3419144192).2 4096 = 0x49 ∧
    (∀ a, a < 4096 ∨ 4096 + 18 ≤ a →
      (InstallCommentHook zeroHitMem ⟨true, 100, true⟩ 4096 3419144192).2 a =
        zeroHitMem a) :=
  ⟨⟨rfl, by norm_num [kHookBufferSize], rfl⟩,
   (C7_install_exact_bytes zeroHitMem ⟨true, 100, true⟩ 4096 3419144192 rfl
     (by norm_num [kHookBufferSize]) rfl).1,
   (C7_install_exact_bytes zeroHitMem ⟨true, 100, true⟩ 4096 3419144192 rfl
     (by norm_num [kHookBufferSize]) rfl).2.1.1,
   (C7_install_exact_bytes zeroHitMem ⟨true, 100, true⟩ 4096 3419144192 rfl
     (by norm_num [kHookBufferSize]) rfl).2.2.2⟩

/-- C5: evaluation at the failing input.  When `VirtualProtect` fails to make
the target writable (`protectOk = false`) while allocation and code
generation succeed, `WriteLongJmp64` aborts without writing — so no target
byte changes — but `InstallCommentHook`, unable to observe the `void`-typed
failure, still returns `true` and logs success, contrary to the spec's
"fatal to installation". -/
theorem C5_protect_failure_not_reported :
    (InstallCommentHook (fun _ => 0) ⟨true, 100, false⟩ 4096 777).1 = true ∧
    (∀ a, (InstallCommentHook (fun _ => 0) ⟨true, 100, false⟩ 4096 777).2 a = 0) ∧
    WriteLongJmp64 (fun _ => 0) false 4096 777 kCommentByteCount = fun _ => 0 :=
  ⟨rfl, fun _ => rfl, WriteLongJmp64_protect_fail (fun _ => 0) 4096 777 _⟩

/-- C8: if the generated hook code exceeds the allocated hook buffer
(`codeSize > kHookBufferSize`), `InstallCommentHook` frees the buffer and
returns `false` before `WriteLongJmp64` is reached, leaving the host memory
exactly as it was. -/
theorem C8_oversize_aborts (mem : Nat → Nat) (env : InstallEnv)
    (target buf : Nat) (h : kHookBufferSize < env.codeSize) :
    InstallCommentHook mem env target buf = (false, mem) := by
  rw [InstallCommentHook]
  cases ha : env.allocOk <;> simp [h]

/-- Witness for C8 at a concrete oversized input. -/
theorem C8_oversize_aborts_witness :
    kHookBufferSize < (⟨true, 257, true⟩ : InstallEnv).codeSize ∧
    InstallCommentHook zeroHitMem ⟨true, 257, true⟩ 4096 777 =
      (false, zeroHitMem) :=
  ⟨by norm_num [kHookBufferSize],
   C8_oversize_aborts zeroHitMem ⟨true, 257, true⟩ 4096 777
     (by norm_num [kHookBufferSize])⟩

/-- C9 (amended): for every nonzero address, `IsBinaryCompatible` returns
true iff the 18 live bytes at that address equal `kCommentBytes` — hence
changing any single byte of the region forces a false result; address 0,
however, is rejected unconditionally (it is the scanners' not-found
sentinel), even if the bytes there matched. -/
theorem C9_verifier_exact (mem : Nat → Nat) (addr : Nat) (h : addr ≠ 0) :
    (IsBinaryCompatible mem addr = true ↔
      ∀ i, i < kCommentByteCount → mem (addr + i) = sigByte i) ∧
    (∀ mem' : Nat → Nat, ∀ j, j < kCommentByteCount →
      mem' (addr + j) ≠ sigByte j → IsBinaryCompatible mem' addr = false) := by
  constructor
  · rw [IsBinaryCompatible, if_neg h]
    exact matchAt_iff
  · intro mem' j hj hne
    rw [IsBinaryCompatible, if_neg h]
    cases hm : matchAt mem' sigByte addr kCommentByteCount
    · rfl
    · exact absurd (matchAt_iff.mp hm j hj) hne

/-- Memory holding the exact signature bytes starting at address 4096. -/
def sigMemAt4096 : Nat → Nat := fun a => sigByte (a - 4096)

/-- Witness for C9 at a concrete nonzero address. -/
theorem C9_verifier_exact_witness :
    (4096 : Nat) ≠ 0 ∧
    (IsBinaryCompatible sigMemAt4096 4096 = true ↔
      ∀ i, i < kCommentByteCount → sigMemAt4096 (4096 + i) = sigByte i) :=
  ⟨by norm_num, (C9_verifier_exact sigMemAt4096 4096 (by norm_num)).1⟩

/-- Memory holding the exact signature bytes starting at address 0. -/
def sigMemAt0 : Nat → Nat := fun a => sigByte a

/-- Counterexample to C9 as stated ("for every address ... true iff the 18
live bytes equal the signature"): at address 0 the live bytes do equal the
signature, yet the verifier returns false because of its null-pointer
guard. -/
theorem C9_counterexample :
    matchAt sigMemAt0 sigByte 0 kCommentByteCount = true ∧
    IsBinaryCompatible sigMemAt0 0 = false := by
  decide

/-! ## Plugin lifecycle (`Main.cpp`): where the verifier runs

`SKSEPlugin_Query` scans and runs `IsBinaryCompatible`, failing on mismatch;
`SKSEPlugin_Load` loads configuration, re-scans and installs the hook.  We
record the observable verifier calls and target writes of each entry point
as an event trace.  The host protocol runs Query first and calls Load only
if Query returned true (`pluginLifecycle`); modern AE hosts using the
`SKSEPlugin_Version` descriptor skip Query entirely and call Load alone. -/

/-- Observable events of the hook machinery: a verifier call (with its
result) and a write of the trampoline to a target address. -/
inductive HookEvent where
  | verified (addr : Nat) (result_ : Bool)
  | wrote (addr : Nat)
deriving DecidableEq

/-- Returns true exactly on verifier events. -/
def isVerifyEvent : HookEvent → Bool
  | .verified _ _ => true
  | .wrote _ => false

/-- Environment of one plugin start: editor flag, runtime-version check
outcome, configuration-load outcome, the (deterministic) scan outcome of
`GetCommentAddress`, the live-byte compatibility of each address, and the
installation oracles. -/
structure PluginEnv where
  isEditor : Bool
  versionOk : Bool
  configOk : Bool
  scanResult : Option Nat
  compat : Nat → Bool
  install : InstallEnv

/-- Events of one `InstallCommentHook` call: the target is written exactly
when allocation, the size check and the protection change all succeed
(cf. `InstallCommentHook` / `WriteLongJmp64`). -/
def installEvents (env : InstallEnv) (addr : Nat) : List HookEvent :=
  if env.allocOk = true ∧ env.codeSize ≤ kHookBufferSize ∧ env.protectOk = true
  then [.wrote addr] else []

/-- Embedding of `SKSEPlugin_Query` from `Main.cpp`: editor check, version check, scan,
then the compatibility verifier; returns true only if all pass. -/
def SKSEPlugin_Query (env : PluginEnv) : List HookEvent × Bool :=
  if env.isEditor then ([], false)
  else if !env.versionOk then ([], false)
  else match env.scanResult with
    | none => ([], false)
    | some addr => ([.verified addr (env.compat addr)], env.compat addr)

/-- Embedding of `SKSEPlugin_Load` from `Main.cpp`: configuration load, scan, then
`InstallCommentHook` — with no call to `IsBinaryCompatible`; a failed scan
or install is only logged and Load still returns true. -/
def SKSEPlugin_Load (env : PluginEnv) : List HookEvent × Bool :=
  if !env.configOk then ([], false)
  else match env.scanResult with
    | none => ([], true)
    | some addr => (installEvents env.install addr, true)

/-- The host protocol: Query, then Load only if Query succeeded. -/
def pluginLifecycle (env : PluginEnv) : List HookEvent :=
  if (SKSEPlugin_Query env).2 then
    (SKSEPlugin_Query env).1 ++ (SKSEPlugin_Load env).1
  else (SKSEPlugin_Query env).1

/-- C6 (amended): verification happens only in the Query entry point — Query
succeeds exactly when the verifier was called on the scanned address and
returned true; the mutating Load entry point never calls the verifier and
writes whenever configuration, scan and installation steps succeed; so on
the combined Query-then-Load protocol every write is preceded by a
successful verification of the same address (from Query's separate scan),
but not immediately before the mutation, and not at all when a host calls
Load without Query. -/
theorem C6_verifier_placement :
    (∀ env : PluginEnv, (SKSEPlugin_Query env).2 = true →
      ∃ a, env.scanResult = some a ∧ env.compat a = true ∧
        (SKSEPlugin_Query env).1 = [.verified a true]) ∧
    (∀ env : PluginEnv, ∀ e ∈ (SKSEPlugin_Load env).1, isVerifyEvent e = false) ∧
    (∀ (env : PluginEnv) (a : Nat), HookEvent.wrote a ∈ pluginLifecycle env →
      HookEvent.verified a true ∈ pluginLifecycle env) := by
  have hquery : ∀ env : PluginEnv, (SKSEPlugin_Query env).2 = true →
      ∃ a, env.scanResult = some a ∧ env.compat a = true ∧
        (SKSEPlugin_Query env).1 = [.verified a true] := by
    intro env h
    rw [SKSEPlugin_Query] at h ⊢
    by_cases h1 : env.isEditor
    · simp [h1] at h
    by_cases h2 : env.versionOk
    · rcases hscan : env.scanResult with _ | a
      · simp [h1, h2, hscan] at h
      · simp only [h1, if_false, h2, Bool.not_true, if_neg, hscan] at h ⊢
        refine ⟨a, rfl, ?_, ?_⟩ <;> simp_all
    · simp [h1, h2] at h
  have hload : ∀ env : PluginEnv, ∀ e ∈ (SKSEPlugin_Load env).1,
      isVerifyEvent e = false := by
    intro env e he
    rw [SKSEPlugin_Load] at he
    by_cases h1 : env.configOk
    · rcases hscan : env.scanResult with _ | a
      · simp [h1, hscan] at he
      · simp only [h1, Bool.not_true, if_neg, if_false, hscan] at he
        rw [installEvents] at he
        by_cases h2 : env.install.allocOk = true ∧
            env.install.codeSize ≤ kHookBufferSize ∧ env.install.protectOk = true
        · rw [if_pos h2] at he
          simp at he
          subst he
          rfl
        · rw [if_neg h2] at he
          simp at he
    · simp [h1] at he
  refine ⟨hquery, hload, ?_⟩
  intro env a hw
  rw [pluginLifecycle] at hw ⊢
  by_cases hq : (SKSEPlugin_Query env).2 = true
  · obtain ⟨b, hb1, hb2, hb3⟩ := hquery env hq
    rw [if_pos hq] at hw ⊢
    rw [List.mem_append] at hw
    rcases hw with hw | hw
    · rw [hb3] at hw
      simp at hw
    · have haddr : a = b := by
        rw [SKSEPlugin_Load] at hw
        by_cases h1 : env.configOk
        · rw [hb1] at hw
          simp only [h1, Bool.not_true, if_neg, if_false] at hw
          rw [installEvents] at hw
          by_cases h2 : env.install.allocOk = true ∧
              env.install.codeSize ≤ kHookBufferSize ∧
              env.install.protectOk = true
          · rw [if_pos h2] at hw
            simp at hw
            exact hw
          · rw [if_neg h2] at hw
            simp at hw
        · simp [h1] at hw
      subst haddr
      rw [List.mem_append, hb3]
      exact Or.inl (by simp)
  · rw [if_neg hq] at hw
    exfalso
    have := hload env
    rcases hqe : env.isEditor with _ | _
    · rw [SKSEPlugin_Query] at hw
      by_cases h2 : env.versionOk
      · rcases hscan : env.scanResult with _ | b
        · simp [hqe, h2, hscan] at hw
        · simp [hqe, h2, hscan] at hw
      · simp [hqe, h2] at hw
    · rw [SKSEPlugin_Query] at hw
      simp [hqe] at hw

/-- Environment where the live bytes are incompatible everywhere: Query's
verification fails, yet Load would still write if invoked. -/
def incompatEnv : PluginEnv :=
  { isEditor := false, versionOk := true, configOk := true,
    scanResult := some 4096, compat := fun _ => false,
    install := ⟨true, 100, true⟩ }

/-- Environment where everything succeeds. -/
def goodEnv : PluginEnv :=
  { isEditor := false, versionOk := true, configOk := true,
    scanResult := some 4096, compat := fun _ => true,
    install := ⟨true, 100, true⟩ }

/-- Witness for C6's amended statement at a concrete environment. -/
theorem C6_verifier_placement_witness :
    HookEvent.wrote 4096 ∈ pluginLifecycle goodEnv ∧
    HookEvent.verified 4096 true ∈ pluginLifecycle goodEnv :=
  ⟨by decide, C6_verifier_placement.2.2 goodEnv 4096 (by decide)⟩

/-- Counterexample to C6 as stated: `SKSEPlugin_Load` mutates the target
without any verifier call — here the verifier would even have *failed*
(`SKSEPlugin_Query` returns false on the same environment), yet a host that
invokes Load alone (the AE `SKSEPlugin_Version` path) writes the hook
anyway: the write is not preceded by any successful verification. -/
theorem C6_counterexample :
    SKSEPlugin_Load incompatEnv = ([.wrote 4096], true) ∧
    (SKSEPlugin_Load incompatEnv).1.all (fun e => !isVerifyEvent e) = true ∧
    SKSEPlugin_Query incompatEnv = ([.verified 4096 false], false) := by
  decide
